import Mathlib

/-!
Verification development for the balloono room-simulation engine
(`src/app.py`).  The Python source is shallowly embedded: floats become
rationals, dicts of players become lists updated at the first matching
entry (dict keys are unique), and every use of the global random number
generator, of `uuid`, and of the wall clock inside the step is threaded
through an explicit `Oracle` argument.  External statistics-sink calls
are modelled as an output list of `SinkEvent`s.
-/

/-! ### Constants (module-level constants of `app.py`) -/

def GAME_WIDTH : ℚ := 800
def GAME_HEIGHT : ℚ := 600
def PLAYER_SPEED : ℚ := 250
def BALLOON_MIN_SPEED : ℚ := 40
def BALLOON_MAX_SPEED : ℚ := 90
def BALLOON_RADIUS : ℚ := 18
def BALLOON_SPAWN_BASE : ℚ := 3/5
def BALLOON_SPAWN_PER_PLAYER : ℚ := 1/4
def PLAYER_COOLDOWN : ℚ := 3/5
def PLAYER_TIMEOUT : ℚ := 30
def BALLOON_FUSE : ℚ := 12/5
def BALLOON_BASE_RADIUS : ℚ := 70
def POWERUP_SPAWN_INTERVAL : ℚ := 12
def BANANA_SPAWN_INTERVAL : ℚ := 10
def BANANA_READY_WINDOW : ℚ := 10
def BANANA_SLOW_DURATION : ℚ := 3

/-! ### Entity model -/

structure Player where
  id : String
  userId : Nat
  name : String
  x : ℚ
  vx : ℚ
  score : Nat
  color : String
  lastSeen : ℚ
  lastShot : ℚ
  speedMult : ℚ
  balloonCapacity : Nat
  blastRadius : ℚ
  bananaReadyUntil : ℚ
  hasBanana : Bool
  slowUntil : ℚ
deriving DecidableEq

structure FallingBalloon where
  id : String
  x : ℚ
  y : ℚ
  vy : ℚ
  radius : ℚ
  color : String
deriving DecidableEq

structure PlacedBalloon where
  id : String
  playerId : String
  x : ℚ
  y : ℚ
  placedAt : ℚ
  fuse : ℚ
  radius : ℚ
deriving DecidableEq

structure Explosion where
  id : String
  x : ℚ
  y : ℚ
  radius : ℚ
  expiresAt : ℚ
  playerId : String
deriving DecidableEq

inductive PowerupType where
  | speed
  | capacity
  | strength
  | banana
deriving DecidableEq

structure Powerup where
  id : String
  ptype : PowerupType
  x : ℚ
  y : ℚ
deriving DecidableEq

structure Banana where
  id : String
  playerId : String
  x : ℚ
  y : ℚ
deriving DecidableEq

structure Room where
  id : String
  players : List Player
  balloons : List FallingBalloon
  placedBalloons : List PlacedBalloon
  explosions : List Explosion
  powerups : List Powerup
  bananas : List Banana
  lastUpdate : ℚ
  spawnAccum : ℚ
  powerupTimer : ℚ
  bananaTimer : ℚ
deriving DecidableEq

/-- Events sent to the external statistics sink (the `User` table updates). -/
inductive SinkEvent where
  | score (userId : Nat)
  | powerupCollected (userId : Nat)
  | balloonPlaced (userId : Nat)
deriving DecidableEq

inductive ApiErr where
  | roomNotFound
  | playerNotFound
deriving DecidableEq

/-- The list `POWERUP_TYPES` of `app.py` (the banana type is not in it;
banana power-ups are spawned by their own timer). -/
def POWERUP_TYPES : List PowerupType :=
  [PowerupType.speed, PowerupType.capacity, PowerupType.strength]

/-- The random attributes drawn by one call of `_new_balloon`. -/
structure BalloonSpec where
  id : String
  x : ℚ
  yOff : ℚ
  vy : ℚ
  color : String
deriving DecidableEq

/-- All non-determinism consumed by one simulation step: the pseudo-random
draws of `random` and `uuid`, and the wall-clock value `_now()` read inside
`_apply_powerup` when a banana power-up activates. -/
structure Oracle where
  balloonSpec : Nat → BalloonSpec
  powerupId : String
  powerupChoice : Fin POWERUP_TYPES.length
  powerupX : ℚ
  bananaPuId : String
  bananaPuX : ℚ
  explosionId : Nat → String
  wallNow : ℚ

/-! ### Basic operations -/

/-- `_player_speed` -/
def player_speed (p : Player) (now : ℚ) : ℚ :=
  let slow_mult : ℚ := if now < p.slowUntil then 9/20 else 1
  PLAYER_SPEED * p.speedMult * slow_mult

/-- The per-player body of the motion loop of `_advance_room`
(lines 197-201): integrate `x`, clamp it, auto-clear an expired banana. -/
def movePlayer (now dt : ℚ) (p : Player) : Player :=
  let p1 : Player := { p with x := max 30 (min (GAME_WIDTH - 30) (p.x + p.vx * player_speed p now * dt)) }
  if p1.hasBanana && decide (p1.bananaReadyUntil < now) then { p1 with hasBanana := false } else p1

/-- The falling-balloon motion loop of `_advance_room` (lines 203-206):
move each balloon, then drop those past the arena top. -/
def moveBalloons (dt : ℚ) (bs : List FallingBalloon) : List FallingBalloon :=
  (bs.map (fun b => { b with y := b.y - b.vy * dt })).filter
    (fun b => !decide (b.y < -BALLOON_RADIUS))

/-- `_new_balloon`, with the random draws supplied by a `BalloonSpec`. -/
def new_balloon (s : BalloonSpec) : FallingBalloon :=
  { id := s.id, x := s.x, y := GAME_HEIGHT + BALLOON_RADIUS + s.yOff,
    vy := s.vy, radius := BALLOON_RADIUS, color := s.color }

/-- The `while room["spawn_accum"] >= 1.0` loop of `_advance_room`:
`fuel` bounds the number of iterations (any value at least
`⌈accum⌉` lets the loop reach its exit condition; `advance_room`
passes exactly that). Returns the final accumulator and the number
of balloons spawned. -/
def drain : Nat → ℚ → ℚ × Nat
  | 0, a => (a, 0)
  | fuel + 1, a =>
    if 1 ≤ a then
      let r := drain fuel (a - 1)
      (r.1, r.2 + 1)
    else (a, 0)

/-- `_spawn_powerup` -/
def spawn_powerup (o : Oracle) : Powerup :=
  { id := o.powerupId, ptype := POWERUP_TYPES.get o.powerupChoice,
    x := o.powerupX, y := GAME_HEIGHT - 55 }

/-- `_spawn_banana_powerup` -/
def spawn_banana_powerup (o : Oracle) : Powerup :=
  { id := o.bananaPuId, ptype := PowerupType.banana,
    x := o.bananaPuX, y := GAME_HEIGHT - 55 }

/-- `_apply_powerup`; `w` is the `_now()` value it reads in the banana
branch. -/
def apply_powerup (w : ℚ) (t : PowerupType) (p : Player) : Player :=
  match t with
  | PowerupType.speed => { p with speedMult := p.speedMult + 3/20 }
  | PowerupType.capacity => { p with balloonCapacity := p.balloonCapacity + 1 }
  | PowerupType.strength => { p with blastRadius := p.blastRadius + 12 }
  | PowerupType.banana => { p with hasBanana := true, bananaReadyUntil := w + BANANA_READY_WINDOW }

/-- Replace the first element satisfying `p` by its image under `f`:
this is how mutating the dict value found by a key lookup is modelled
(dict keys are unique). -/
def updateFirst (p : α → Bool) (f : α → α) : List α → List α
  | [] => []
  | a :: rest => if p a then f a :: rest else a :: updateFirst p f rest

/-- `shooter["score"] += 1` after `room["players"].get(...)`: a no-op when
no player has the id. -/
def credit_score (ps : List Player) (pid : String) : List Player :=
  updateFirst (fun p => p.id == pid) (fun p => { p with score := p.score + 1 }) ps

/-- The score of the shooter bumped by `k` at once: the net effect on the
players of `k` single credits during one explosion resolution. -/
def score_bumped (ps : List Player) (pid : String) (k : Nat) : List Player :=
  updateFirst (fun p => p.id == pid) (fun p => { p with score := p.score + k }) ps

/-- The circle-circle overlap test of the explosion loop (line 246). -/
def hitTest (e : Explosion) (b : FallingBalloon) : Bool :=
  let dx := e.x - b.x
  let dy := e.y - b.y
  decide (dx * dx + dy * dy ≤ (e.radius + b.radius) ^ 2)

/-- The inner loop of explosion resolution (lines 243-255): iterate a
snapshot of the balloons, removing each hit balloon from the live list and
crediting the shooter if present. -/
def resolveGo (e : Explosion) :
    List FallingBalloon → List Player → List FallingBalloon → List SinkEvent →
    List Player × List FallingBalloon × List SinkEvent
  | [], ps, live, evs => (ps, live, evs)
  | b :: rest, ps, live, evs =>
    if hitTest e b then
      match ps.find? (fun p => p.id == e.playerId) with
      | some sh =>
        resolveGo e rest (credit_score ps e.playerId) (live.erase b)
          (evs ++ [SinkEvent.score sh.userId])
      | none => resolveGo e rest ps (live.erase b) evs
    else resolveGo e rest ps live evs

/-- Resolution of a single live explosion: the inner loop run on a snapshot
of the current balloons. -/
def resolveExplosion (e : Explosion) (ps : List Player) (bs : List FallingBalloon)
    (evs : List SinkEvent) : List Player × List FallingBalloon × List SinkEvent :=
  resolveGo e bs ps bs evs

/-- The outer explosion loop of `_advance_room` (lines 239-255): expired
explosions are removed, live ones are resolved in order. -/
def explosionPhase (now : ℚ) :
    List Explosion → List Player → List FallingBalloon → List SinkEvent →
    List Explosion × List Player × List FallingBalloon × List SinkEvent
  | [], ps, bs, evs => ([], ps, bs, evs)
  | e :: rest, ps, bs, evs =>
    if decide (e.expiresAt < now) then explosionPhase now rest ps bs evs
    else
      let r1 := resolveExplosion e ps bs evs
      let r2 := explosionPhase now rest r1.1 r1.2.1 r1.2.2
      (e :: r2.1, r2.2.1, r2.2.2.1, r2.2.2.2)

/-- The pickup test of the power-up loop (lines 259-261). -/
def puOverlap (pu : Powerup) (p : Player) : Bool :=
  let dx := pu.x - p.x
  let dy := pu.y - (GAME_HEIGHT - 34)
  decide (dx * dx + dy * dy ≤ 26 ^ 2)

/-- The inner player loop of the power-up pickup (lines 258-269): the first
overlapping player consumes the item (`break`), returning the updated
players and the user id of the consumer; `none` when nobody overlaps. -/
def powerupInner (w : ℚ) (pu : Powerup) : List Player → Option (List Player × Nat)
  | [] => none
  | p :: rest =>
    if puOverlap pu p then some (apply_powerup w pu.ptype p :: rest, p.userId)
    else
      match powerupInner w pu rest with
      | some (rest1, uid) => some (p :: rest1, uid)
      | none => none

/-- The outer power-up loop (lines 257-269) over a snapshot of the
power-ups; a consumed power-up is removed from the live list. -/
def powerupPhase (w : ℚ) :
    List Powerup → List Player → List SinkEvent →
    List Powerup × List Player × List SinkEvent
  | [], ps, evs => ([], ps, evs)
  | pu :: rest, ps, evs =>
    match powerupInner w pu ps with
    | some (ps1, uid) => powerupPhase w rest ps1 (evs ++ [SinkEvent.powerupCollected uid])
    | none =>
      let r := powerupPhase w rest ps evs
      (pu :: r.1, r.2.1, r.2.2)

/-- The pickup test of the banana loop (lines 275-277). -/
def bananaOverlap (bn : Banana) (p : Player) : Bool :=
  let dx := bn.x - p.x
  let dy := bn.y - (GAME_HEIGHT - 34)
  decide (dx * dx + dy * dy ≤ 22 ^ 2)

/-- The inner player loop of the banana pickup (lines 272-280): the owner
is skipped (`continue`), the first other overlapping player is slowed and
consumes the banana (`break`). -/
def bananaInner (now : ℚ) (bn : Banana) : List Player → Option (List Player)
  | [] => none
  | p :: rest =>
    if (p.id != bn.playerId) && bananaOverlap bn p then
      some ({ p with slowUntil := max p.slowUntil (now + BANANA_SLOW_DURATION) } :: rest)
    else
      match bananaInner now bn rest with
      | some rest1 => some (p :: rest1)
      | none => none

/-- The outer banana loop (lines 271-280) over a snapshot of the bananas. -/
def bananaPhase (now : ℚ) :
    List Banana → List Player → List Banana × List Player
  | [], ps => ([], ps)
  | bn :: rest, ps =>
    match bananaInner now bn ps with
    | some ps1 => bananaPhase now rest ps1
    | none =>
      let r := bananaPhase now rest ps
      (bn :: r.1, r.2)

/-- The elapsed-time delta of `_advance_room` (line 194):
`dt = max(0.0, min(0.05, now - room["last_update"]))`. -/
def dt_clamp (r : Room) (now : ℚ) : ℚ :=
  max 0 (min (1/20) (now - r.lastUpdate))

/-- The fuse test of lines 225-226. -/
def fuse_expired (now : ℚ) (pb : PlacedBalloon) : Bool :=
  decide (pb.fuse ≤ now - pb.placedAt)

/-- The explosion created from an expired placed balloon (lines 228-237). -/
def explode (now : ℚ) (eid : String) (pb : PlacedBalloon) : Explosion :=
  { id := eid, x := pb.x, y := pb.y, radius := pb.radius,
    expiresAt := now + 2/5, playerId := pb.playerId }

/-- `_advance_room(room, now)`.  Stages in source order: time delta,
player motion, balloon motion, accumulator-driven balloon spawning,
timer-driven power-up/banana-power-up spawning, fuse expiry, explosion
resolution, power-up pickup, banana pickup.  Returns the new room and the
statistics-sink events emitted. -/
def advance_room (r : Room) (now : ℚ) (o : Oracle) : Room × List SinkEvent :=
  let dt := dt_clamp r now
  let players1 := r.players.map (movePlayer now dt)
  let balloons1 := moveBalloons dt r.balloons
  let accum1 := r.spawnAccum + dt * (BALLOON_SPAWN_BASE + BALLOON_SPAWN_PER_PLAYER * (players1.length : ℚ))
  let drained := drain (Int.ceil accum1).toNat accum1
  let balloons2 := balloons1 ++ (List.range drained.2).map (fun k => new_balloon (o.balloonSpec k))
  let put1 := r.powerupTimer + dt
  let powerups1 := if POWERUP_SPAWN_INTERVAL ≤ put1 then r.powerups ++ [spawn_powerup o] else r.powerups
  let put2 := if POWERUP_SPAWN_INTERVAL ≤ put1 then 0 else put1
  let bat1 := r.bananaTimer + dt
  let powerups2 := if BANANA_SPAWN_INTERVAL ≤ bat1 then powerups1 ++ [spawn_banana_powerup o] else powerups1
  let bat2 := if BANANA_SPAWN_INTERVAL ≤ bat1 then 0 else bat1
  let expired := r.placedBalloons.filter (fuse_expired now)
  let kept := r.placedBalloons.filter (fun pb => !fuse_expired now pb)
  let explosions1 := r.explosions ++ expired.enum.map (fun pr => explode now (o.explosionId pr.1) pr.2)
  let step7 := explosionPhase now explosions1 players1 balloons2 []
  let step8 := powerupPhase o.wallNow powerups2 step7.2.1 step7.2.2.2
  let step9 := bananaPhase now r.bananas step8.2.1
  ({ r with players := step9.2, balloons := step7.2.2.1, placedBalloons := kept,
            explosions := step7.1, powerups := step8.1, bananas := step9.1,
            lastUpdate := now, spawnAccum := drained.1,
            powerupTimer := put2, bananaTimer := bat2 },
   step8.2.2)

/-- `_cleanup_players` -/
def cleanup_players (ps : List Player) (now : ℚ) : List Player :=
  ps.filter (fun p => !decide (PLAYER_TIMEOUT < now - p.lastSeen))

/-- `max(-1.0, min(1.0, float(move)))` (line 415). -/
def clampMove (m : ℚ) : ℚ := max (-1) (min 1 m)

/-- The room/player part of `api_input` (lines 396-451), given the room:
refresh `lastSeen`, clamp and store `vx`, then the balloon-placement and
banana-placement policies.  `balloonId`/`bananaId` stand for the `uuid`
draws.  Returns the new room and the sink events. -/
def api_input (r : Room) (pid : String) (move : ℚ) (placeBalloon placeBanana : Bool)
    (now : ℚ) (balloonId bananaId : String) : Except ApiErr (Room × List SinkEvent) :=
  match r.players.find? (fun p => p.id == pid) with
  | none => Except.error ApiErr.playerNotFound
  | some p0 =>
    let p1 : Player := { p0 with lastSeen := now, vx := clampMove move }
    let shoot := placeBalloon && decide (PLAYER_COOLDOWN ≤ now - p1.lastShot)
      && decide ((r.placedBalloons.filter (fun b => b.playerId == pid)).length < p1.balloonCapacity)
    let p2 := if shoot then { p1 with lastShot := now } else p1
    let placed1 := if shoot then
        r.placedBalloons ++ [{ id := balloonId, playerId := pid, x := p1.x,
                               y := GAME_HEIGHT - 45, placedAt := now,
                               fuse := BALLOON_FUSE, radius := p1.blastRadius }]
      else r.placedBalloons
    let evs1 : List SinkEvent := if shoot then [SinkEvent.balloonPlaced p1.userId] else []
    let throwBanana := placeBanana && p2.hasBanana && decide (now ≤ p2.bananaReadyUntil)
    let p3 := if throwBanana then { p2 with hasBanana := false } else p2
    let bananas1 := if throwBanana then
        r.bananas ++ [{ id := bananaId, playerId := pid, x := p2.x, y := GAME_HEIGHT - 45 }]
      else r.bananas
    Except.ok ({ r with players := updateFirst (fun p => p.id == pid) (fun _ => p3) r.players,
                        placedBalloons := placed1, bananas := bananas1 }, evs1)

/-- The room/player part of `api_poll` (lines 454-473), given the room:
refresh the `lastSeen` of the polling player, evict stale players, advance the
simulation. -/
def api_poll (r : Room) (pid : String) (now : ℚ) (o : Oracle) :
    Except ApiErr (Room × List SinkEvent) :=
  match r.players.find? (fun p => p.id == pid) with
  | none => Except.error ApiErr.playerNotFound
  | some _ =>
    let ps1 := updateFirst (fun p => p.id == pid) (fun p => { p with lastSeen := now }) r.players
    let r1 : Room := { r with players := cleanup_players ps1 now }
    Except.ok (advance_room r1 now o)

/-- The identity-and-position projection of a player; the simulation stages
after the motion loop never change it. -/
def pairIX (p : Player) : String × ℚ := (p.id, p.x)

/-! ### Concrete sample data used to exercise the theorems -/

def basePlayer : Player :=
  { id := "p1", userId := 7, name := "alice", x := 400, vx := 0, score := 0,
    color := "red", lastSeen := 0, lastShot := 0, speedMult := 1,
    balloonCapacity := 1, blastRadius := 70, bananaReadyUntil := 0,
    hasBanana := false, slowUntil := 0 }

def oracleA : Oracle :=
  { balloonSpec := fun _ => { id := "b0", x := 100, yOff := 0, vy := 50, color := "red" },
    powerupId := "pu0", powerupChoice := ⟨0, by decide⟩, powerupX := 200,
    bananaPuId := "bn0", bananaPuX := 300, explosionId := fun _ => "ex0", wallNow := 0 }

def oracleB : Oracle :=
  { oracleA with
    balloonSpec := fun _ => { id := "b0", x := 200, yOff := 0, vy := 50, color := "red" } }

def emptyRoom : Room :=
  { id := "lobby", players := [], balloons := [], placedBalloons := [], explosions := [],
    powerups := [], bananas := [], lastUpdate := 0, spawnAccum := 0,
    powerupTimer := 0, bananaTimer := 0 }

/-- A room whose spawn accumulator has already reached 1, so the next
`advance_room` call spawns a balloon from the random draws. -/
def roomSpawny : Room := { emptyRoom with spawnAccum := 1 }

/-- A room whose clock is ahead of the `now` value passed to the next
`advance_room` call. -/
def roomLate : Room := { emptyRoom with lastUpdate := 1 }

/-- A room holding one player, already up to date at time 1. -/
def roomOneP : Room := { emptyRoom with players := [basePlayer], lastUpdate := 1 }

/-- A room with the accumulator strictly inside `[0, 1)`. -/
def roomHalf : Room := { emptyRoom with spawnAccum := 1/2 }

def fbHit : FallingBalloon :=
  { id := "f1", x := 400, y := 560, vy := 50, radius := 18, color := "red" }

def fbMiss : FallingBalloon :=
  { id := "f2", x := 100, y := 560, vy := 50, radius := 18, color := "red" }

/-- An explosion owned by `basePlayer`, still alive at time 0. -/
def exLive : Explosion :=
  { id := "e1", x := 400, y := 555, radius := 70, expiresAt := 1, playerId := "p1" }

/-- The same explosion already expired at time 1. -/
def exDead : Explosion := { exLive with expiresAt := 0 }

/-- A speed power-up directly over `basePlayer`. -/
def puSpeed : Powerup := { id := "u1", ptype := PowerupType.speed, x := 400, y := 545 }

/-- A power-up out of reach of every player. -/
def puFar : Powerup := { id := "u2", ptype := PowerupType.speed, x := 100, y := 545 }

def basePlayerSped : Player := { basePlayer with speedMult := 23/20 }

/-- A banana owned by an absent player, overlapping `basePlayer`. -/
def bnOther : Banana := { id := "n1", playerId := "p9", x := 400, y := 555 }

/-- A banana owned by `basePlayer` itself, overlapping it. -/
def bnOwn : Banana := { id := "n2", playerId := "p1", x := 400, y := 555 }

def basePlayerSlowed : Player := { basePlayer with slowUntil := 4 }

def victimP : Player := { basePlayer with id := "p2" }

def victimSlowed : Player := { victimP with slowUntil := 4 }

/-! ### Helper lemmas about the embedded loops -/

theorem drain_of_lt_one (fuel : Nat) (a : ℚ) (h : a < 1) : drain fuel a = (a, 0) := by
  cases fuel with
  | zero => rfl
  | succ n => simp [drain, not_le.mpr h]

theorem drain_fst_lt_one (fuel : Nat) (a : ℚ) (h : (Int.ceil a).toNat ≤ fuel) :
    (drain fuel a).1 < 1 := by
  induction fuel generalizing a with
  | zero =>
    have h0 : Int.ceil a ≤ 0 := by omega
    have : a ≤ (0 : ℚ) := by exact_mod_cast Int.ceil_le.mp h0
    simpa [drain] using lt_of_le_of_lt this (by norm_num)
  | succ n ih =>
    by_cases h1 : 1 ≤ a
    · have hc1 : (1 : ℤ) ≤ Int.ceil a := by
        have := Int.le_ceil a
        exact_mod_cast Int.ceil_le_ceil h1 |>.trans_eq' (by norm_num)
      have hrec : (Int.ceil (a - 1)).toNat ≤ n := by
        rw [Int.ceil_sub_one]
        omega
      simp only [drain, if_pos h1]
      exact ih (a - 1) hrec
    · push_neg at h1
      simpa [drain_of_lt_one _ _ h1] using h1

theorem drain_fst_nonneg (fuel : Nat) (a : ℚ) (h : 0 ≤ a) : 0 ≤ (drain fuel a).1 := by
  induction fuel generalizing a with
  | zero => simpa [drain] using h
  | succ n ih =>
    by_cases h1 : 1 ≤ a
    · simp only [drain, if_pos h1]
      exact ih (a - 1) (by linarith)
    · simpa [drain, if_neg h1] using h

theorem updateFirst_map (g : α → β) (p : α → Bool) (f : α → α)
    (h : ∀ a, g (f a) = g a) (l : List α) :
    (updateFirst p f l).map g = l.map g := by
  induction l with
  | nil => rfl
  | cons a rest ih =>
    by_cases hp : p a
    · simp [updateFirst, hp, h]
    · simp [updateFirst, hp, ih]

theorem updateFirst_of_forall (p : α → Bool) (f : α → α)
    (h : ∀ a, f a = a) (l : List α) : updateFirst p f l = l := by
  induction l with
  | nil => rfl
  | cons a rest ih =>
    by_cases hp : p a
    · simp [updateFirst, hp, h]
    · simp [updateFirst, hp, ih]

theorem find?_updateFirst (p : α → Bool) (f : α → α)
    (h : ∀ a, p (f a) = p a) (l : List α) :
    (updateFirst p f l).find? p = (l.find? p).map f := by
  induction l with
  | nil => rfl
  | cons a rest ih =>
    by_cases hp : p a
    · simp [updateFirst, hp, List.find?_cons, h]
    · simp [updateFirst, hp, List.find?_cons, ih]

theorem updateFirst_updateFirst (p : α → Bool) (f g : α → α)
    (h : ∀ a, p (g a) = p a) (l : List α) :
    updateFirst p f (updateFirst p g l) = updateFirst p (fun a => f (g a)) l := by
  induction l with
  | nil => rfl
  | cons a rest ih =>
    by_cases hp : p a
    · simp [updateFirst, hp, h]
    · simp [updateFirst, hp, ih]

theorem updateFirst_congr (p : α → Bool) (f g : α → α)
    (h : ∀ a, f a = g a) (l : List α) :
    updateFirst p f l = updateFirst p g l := by
  induction l with
  | nil => rfl
  | cons a rest ih =>
    by_cases hp : p a
    · simp [updateFirst, hp, h]
    · simp [updateFirst, hp, ih]

theorem mem_updateFirst_of_find? (p : α → Bool) (f : α → α) (l : List α) (a : α)
    (h : l.find? p = some a) : f a ∈ updateFirst p f l := by
  induction l with
  | nil => simp at h
  | cons b rest ih =>
    by_cases hp : p b
    · rw [List.find?_cons_of_pos _ hp] at h
      cases h
      simp [updateFirst, hp]
    · rw [List.find?_cons_of_neg _ hp] at h
      simp [updateFirst, hp, ih h]

theorem exists_mem_updateFirst (p : α → Bool) (f : α → α) (l : List α) (a : α)
    (h : a ∈ l) : a ∈ updateFirst p f l ∨ f a ∈ updateFirst p f l := by
  induction l with
  | nil => simp at h
  | cons b rest ih =>
    rcases List.mem_cons.mp h with rfl | hmem
    · by_cases hp : p a
      · right; simp [updateFirst, hp]
      · left; simp [updateFirst, hp]
    · by_cases hp : p b
      · left; simp [updateFirst, hp, List.mem_cons, hmem]
      · rcases ih hmem with h1 | h1
        · left; simp [updateFirst, hp, List.mem_cons, h1]
        · right; simp [updateFirst, hp, List.mem_cons, h1]

theorem pairIX_apply_powerup (w : ℚ) (t : PowerupType) (p : Player) :
    pairIX (apply_powerup w t p) = pairIX p := by
  cases t <;> rfl

theorem pairIX_credit (p : Player) :
    pairIX { p with score := p.score + 1 } = pairIX p := rfl

theorem credit_score_pair (ps : List Player) (pid : String) :
    (credit_score ps pid).map pairIX = ps.map pairIX := by
  unfold credit_score
  exact updateFirst_map pairIX (fun p => p.id == pid)
    (fun p => { p with score := p.score + 1 }) (fun _ => rfl) ps

theorem list_set_self (l : List α) (i : Nat) (h : i < l.length) :
    l.set i l[i] = l := by
  induction l generalizing i with
  | nil => rfl
  | cons a t ih =>
    cases i with
    | zero => rfl
    | succ n =>
      have hn : n < t.length := by simpa using h
      show a :: t.set n t[n] = a :: t
      rw [ih n hn]

theorem resolveGo_players_pair (e : Explosion) (snap : List FallingBalloon) :
    ∀ (ps : List Player) (live : List FallingBalloon) (evs : List SinkEvent),
      ((resolveGo e snap ps live evs).1).map pairIX = ps.map pairIX := by
  induction snap with
  | nil => intro ps live evs; rfl
  | cons b rest ih =>
    intro ps live evs
    by_cases hb : hitTest e b
    · cases hf : ps.find? (fun p => p.id == e.playerId) with
      | some sh => simp [resolveGo, hb, hf, ih, credit_score_pair]
      | none => simp [resolveGo, hb, hf, ih]
    · simp [resolveGo, hb, ih]

theorem resolveGo_live_sublist (e : Explosion) (snap : List FallingBalloon) :
    ∀ (ps : List Player) (live : List FallingBalloon) (evs : List SinkEvent),
      List.Sublist (resolveGo e snap ps live evs).2.1 live := by
  induction snap with
  | nil => intro ps live evs; exact List.Sublist.refl _
  | cons b rest ih =>
    intro ps live evs
    by_cases hb : hitTest e b
    · cases hf : ps.find? (fun p => p.id == e.playerId) with
      | some sh =>
        simp only [resolveGo, hb, if_true, hf]
        exact (ih _ _ _).trans (List.erase_sublist _ _)
      | none =>
        simp only [resolveGo, hb, if_true, hf]
        exact (ih _ _ _).trans (List.erase_sublist _ _)
    · simp only [resolveGo, hb, if_false, Bool.false_eq_true]
      exact ih _ _ _

theorem explosionPhase_players_pair (now : ℚ) (es : List Explosion) :
    ∀ (ps : List Player) (bs : List FallingBalloon) (evs : List SinkEvent),
      ((explosionPhase now es ps bs evs).2.1).map pairIX = ps.map pairIX := by
  induction es with
  | nil => intro ps bs evs; rfl
  | cons e rest ih =>
    intro ps bs evs
    by_cases he : e.expiresAt < now
    · simp [explosionPhase, he, ih]
    · simp [explosionPhase, he, ih, resolveExplosion, resolveGo_players_pair]

theorem explosionPhase_balloons_sublist (now : ℚ) (es : List Explosion) :
    ∀ (ps : List Player) (bs : List FallingBalloon) (evs : List SinkEvent),
      List.Sublist (explosionPhase now es ps bs evs).2.2.1 bs := by
  induction es with
  | nil => intro ps bs evs; exact List.Sublist.refl _
  | cons e rest ih =>
    intro ps bs evs
    simp only [explosionPhase]
    split
    · exact ih _ _ _
    · exact (ih _ _ _).trans (resolveGo_live_sublist _ _ _ _ _)

theorem powerupInner_some_set (w : ℚ) (pu : Powerup) (ps ps1 : List Player) (uid : Nat)
    (h : powerupInner w pu ps = some (ps1, uid)) :
    ∃ i, ∃ hi : i < ps.length,
      puOverlap pu (ps.get ⟨i, hi⟩) = true ∧ uid = (ps.get ⟨i, hi⟩).userId ∧
      ps1 = ps.set i (apply_powerup w pu.ptype (ps.get ⟨i, hi⟩)) := by
  induction ps generalizing ps1 uid with
  | nil => simp [powerupInner] at h
  | cons p rest ih =>
    by_cases hp : puOverlap pu p
    · simp only [powerupInner, hp, if_true] at h
      injection h with h1
      injection h1 with hps huid
      exact ⟨0, by simp, hp, huid.symm, hps.symm⟩
    · simp only [powerupInner, hp, if_false, Bool.false_eq_true] at h
      cases hrec : powerupInner w pu rest with
      | none => rw [hrec] at h; simp at h
      | some pr =>
        obtain ⟨rest1, uid1⟩ := pr
        rw [hrec] at h
        injection h with h1
        injection h1 with hps huid
        subst hps
        subst huid
        obtain ⟨i, hi, hov, hu, hset⟩ := ih rest1 uid1 hrec
        exact ⟨i + 1, Nat.succ_lt_succ hi, hov, hu, by subst hset; rfl⟩

theorem powerupInner_pair (w : ℚ) (pu : Powerup) (ps ps1 : List Player) (uid : Nat)
    (h : powerupInner w pu ps = some (ps1, uid)) :
    ps1.map pairIX = ps.map pairIX := by
  obtain ⟨i, hi, _, _, hset⟩ := powerupInner_some_set w pu ps ps1 uid h
  subst hset
  have hi2 : i < (ps.map pairIX).length := by simpa using hi
  rw [List.map_set, pairIX_apply_powerup]
  have : pairIX (ps.get ⟨i, hi⟩) = (ps.map pairIX)[i] := by simp
  rw [this, list_set_self _ _ hi2]

theorem powerupPhase_players_pair (w : ℚ) (pus : List Powerup) :
    ∀ (ps : List Player) (evs : List SinkEvent),
      ((powerupPhase w pus ps evs).2.1).map pairIX = ps.map pairIX := by
  induction pus with
  | nil => intro ps evs; rfl
  | cons pu rest ih =>
    intro ps evs
    cases hin : powerupInner w pu ps with
    | some pr =>
      obtain ⟨ps1, uid⟩ := pr
      simp only [powerupPhase, hin]
      rw [ih ps1 _, powerupInner_pair w pu ps ps1 uid hin]
    | none => simp [powerupPhase, hin, ih]

theorem powerupPhase_live_sublist (w : ℚ) (pus : List Powerup) :
    ∀ (ps : List Player) (evs : List SinkEvent),
      List.Sublist (powerupPhase w pus ps evs).1 pus := by
  induction pus with
  | nil => intro ps evs; exact List.Sublist.refl _
  | cons pu rest ih =>
    intro ps evs
    cases hin : powerupInner w pu ps with
    | some pr =>
      obtain ⟨ps1, uid⟩ := pr
      simp only [powerupPhase, hin]
      exact (ih _ _).cons _
    | none =>
      simp only [powerupPhase, hin]
      exact (ih _ _).cons₂ _

theorem bananaInner_some_set (now : ℚ) (bn : Banana) (ps ps1 : List Player)
    (h : bananaInner now bn ps = some ps1) :
    ∃ i, ∃ hi : i < ps.length,
      (ps.get ⟨i, hi⟩).id ≠ bn.playerId ∧ bananaOverlap bn (ps.get ⟨i, hi⟩) = true ∧
      ps1 = ps.set i { ps.get ⟨i, hi⟩ with
        slowUntil := max (ps.get ⟨i, hi⟩).slowUntil (now + BANANA_SLOW_DURATION) } := by
  induction ps generalizing ps1 with
  | nil => simp [bananaInner] at h
  | cons p rest ih =>
    by_cases hp : ((p.id != bn.playerId) && bananaOverlap bn p) = true
    · simp only [bananaInner, hp, if_true] at h
      injection h with h1
      obtain ⟨hne, hov⟩ := Bool.and_eq_true_iff.mp hp
      exact ⟨0, by simp, by simpa using hne, hov, h1.symm⟩
    · simp only [bananaInner, hp, if_false, Bool.false_eq_true] at h
      cases hrec : bananaInner now bn rest with
      | none => rw [hrec] at h; simp at h
      | some rest1 =>
        rw [hrec] at h
        injection h with h1
        subst h1
        obtain ⟨i, hi, hne, hov, hset⟩ := ih rest1 hrec
        exact ⟨i + 1, Nat.succ_lt_succ hi, hne, hov, by subst hset; rfl⟩

theorem bananaInner_pair (now : ℚ) (bn : Banana) (ps ps1 : List Player)
    (h : bananaInner now bn ps = some ps1) :
    ps1.map pairIX = ps.map pairIX := by
  obtain ⟨i, hi, _, _, hset⟩ := bananaInner_some_set now bn ps ps1 h
  subst hset
  have hi2 : i < (ps.map pairIX).length := by simpa using hi
  rw [List.map_set]
  have : pairIX { ps.get ⟨i, hi⟩ with
      slowUntil := max (ps.get ⟨i, hi⟩).slowUntil (now + BANANA_SLOW_DURATION) } =
      (ps.map pairIX)[i] := by simp [pairIX]
  rw [this, list_set_self _ _ hi2]

theorem bananaPhase_players_pair (now : ℚ) (bns : List Banana) :
    ∀ ps : List Player,
      ((bananaPhase now bns ps).2).map pairIX = ps.map pairIX := by
  induction bns with
  | nil => intro ps; rfl
  | cons bn rest ih =>
    intro ps
    cases hin : bananaInner now bn ps with
    | some ps1 =>
      simp only [bananaPhase, hin]
      rw [ih ps1, bananaInner_pair now bn ps ps1 hin]
    | none => simp [bananaPhase, hin, ih]

theorem bananaPhase_live_sublist (now : ℚ) (bns : List Banana) :
    ∀ ps : List Player, List.Sublist (bananaPhase now bns ps).1 bns := by
  induction bns with
  | nil => intro ps; exact List.Sublist.refl _
  | cons bn rest ih =>
    intro ps
    cases hin : bananaInner now bn ps with
    | some ps1 =>
      simp only [bananaPhase, hin]
      exact (ih _).cons _
    | none =>
      simp only [bananaPhase, hin]
      exact (ih _).cons₂ _

theorem movePlayer_x (now dt : ℚ) (p : Player) :
    (movePlayer now dt p).x =
      max 30 (min (GAME_WIDTH - 30) (p.x + p.vx * player_speed p now * dt)) := by
  simp only [movePlayer]
  split <;> rfl

theorem movePlayer_id (now dt : ℚ) (p : Player) :
    (movePlayer now dt p).id = p.id := by
  simp only [movePlayer]
  split <;> rfl

theorem advance_lastUpdate (r : Room) (now : ℚ) (o : Oracle) :
    (advance_room r now o).1.lastUpdate = now := by
  simp only [advance_room]

theorem advance_spawnAccum_lt_one (r : Room) (now : ℚ) (o : Oracle) :
    (advance_room r now o).1.spawnAccum < 1 := by
  simp only [advance_room]
  exact drain_fst_lt_one _ _ le_rfl

theorem advance_powerupTimer_lt (r : Room) (now : ℚ) (o : Oracle) :
    (advance_room r now o).1.powerupTimer < POWERUP_SPAWN_INTERVAL := by
  simp only [advance_room]
  split
  · norm_num [POWERUP_SPAWN_INTERVAL]
  · next h => exact lt_of_not_le h

theorem advance_bananaTimer_lt (r : Room) (now : ℚ) (o : Oracle) :
    (advance_room r now o).1.bananaTimer < BANANA_SPAWN_INTERVAL := by
  simp only [advance_room]
  split
  · norm_num [BANANA_SPAWN_INTERVAL]
  · next h => exact lt_of_not_le h

theorem advance_players_pair (r : Room) (now : ℚ) (o : Oracle) :
    ((advance_room r now o).1.players).map pairIX =
      r.players.map (fun p => pairIX (movePlayer now (dt_clamp r now) p)) := by
  simp only [advance_room]
  rw [bananaPhase_players_pair, powerupPhase_players_pair, explosionPhase_players_pair,
    List.map_map]
  rfl

theorem advance_players_ids (r : Room) (now : ℚ) (o : Oracle) :
    ((advance_room r now o).1.players).map Player.id = r.players.map Player.id := by
  have h1 : ((advance_room r now o).1.players).map Player.id =
      (((advance_room r now o).1.players).map pairIX).map Prod.fst := by
    rw [List.map_map]; rfl
  rw [h1, advance_players_pair, List.map_map]
  exact List.map_congr_left (fun p _ => movePlayer_id now (dt_clamp r now) p)

theorem advance_x_bounds (r : Room) (now : ℚ) (o : Oracle) :
    ∀ p ∈ (advance_room r now o).1.players, 30 ≤ p.x ∧ p.x ≤ GAME_WIDTH - 30 := by
  intro p hp
  have hmem : pairIX p ∈ ((advance_room r now o).1.players).map pairIX :=
    List.mem_map_of_mem pairIX hp
  rw [advance_players_pair] at hmem
  obtain ⟨q, hq, hpair⟩ := List.mem_map.mp hmem
  have hx : p.x = (movePlayer now (dt_clamp r now) q).x := by
    have := congrArg Prod.snd hpair
    simpa [pairIX] using this.symm
  rw [hx, movePlayer_x]
  constructor
  · exact le_max_left _ _
  · refine max_le ?_ (min_le_left _ _)
    norm_num [GAME_WIDTH]

theorem score_bumped_zero (ps : List Player) (pid : String) :
    score_bumped ps pid 0 = ps := by
  unfold score_bumped
  exact updateFirst_of_forall _ _ (fun p => by simp) ps

theorem credit_score_bumped (ps : List Player) (pid : String) (k : Nat) :
    score_bumped (credit_score ps pid) pid k = score_bumped ps pid (k + 1) := by
  unfold score_bumped credit_score
  have h1 := updateFirst_updateFirst (fun p : Player => p.id == pid)
    (fun p : Player => { p with score := p.score + k })
    (fun p : Player => { p with score := p.score + 1 }) (fun a => rfl) ps
  rw [h1]
  refine updateFirst_congr _ _ _ (fun a => ?_) ps
  show ({ a with score := a.score + 1 + k } : Player) = { a with score := a.score + (k + 1) }
  rw [Nat.add_assoc, Nat.add_comm 1 k]

theorem find?_credit (ps : List Player) (pid : String) :
    (credit_score ps pid).find? (fun p => p.id == pid) =
      (ps.find? (fun p => p.id == pid)).map (fun p => { p with score := p.score + 1 }) := by
  unfold credit_score
  exact find?_updateFirst (fun p => p.id == pid)
    (fun p => { p with score := p.score + 1 }) (fun a => rfl) ps

theorem erase_of_forall_ne {α : Type} [DecidableEq α] (kept : List α) (b : α)
    (rest : List α) (h : ∀ x ∈ kept, x ≠ b) :
    (kept ++ b :: rest).erase b = kept ++ rest := by
  induction kept with
  | nil => exact List.erase_cons_head b rest
  | cons x t ih =>
    have hxb : ¬(x == b) = true := by simpa using h x (by simp)
    rw [List.cons_append, List.erase_cons_tail hxb, ih (fun y hy => h y (by simp [hy]))]
    rfl

theorem resolveGo_spec (e : Explosion) (snap : List FallingBalloon) :
    ∀ (kept : List FallingBalloon) (ps : List Player) (evs : List SinkEvent),
      (∀ b ∈ kept, hitTest e b = false) →
      resolveGo e snap ps (kept ++ snap) evs =
        ((match ps.find? (fun p => p.id == e.playerId) with
          | some _ => score_bumped ps e.playerId (snap.countP (hitTest e))
          | none => ps),
         kept ++ snap.filter (fun b => !hitTest e b),
         evs ++ (match ps.find? (fun p => p.id == e.playerId) with
                 | some sh => List.replicate (snap.countP (hitTest e)) (SinkEvent.score sh.userId)
                 | none => [])) := by
  induction snap with
  | nil =>
    intro kept ps evs hk
    cases hf : ps.find? (fun p => p.id == e.playerId) with
    | some sh => simp [resolveGo, hf, score_bumped_zero]
    | none => simp [resolveGo, hf]
  | cons b rest ih =>
    intro kept ps evs hk
    by_cases hb : hitTest e b = true
    · have herase : (kept ++ b :: rest).erase b = kept ++ rest :=
        erase_of_forall_ne kept b rest (fun x hx heq => by
          rw [heq] at hx
          have := hk b hx
          rw [this] at hb
          exact Bool.false_ne_true hb)
      cases hf : ps.find? (fun p => p.id == e.playerId) with
      | some sh =>
        simp only [resolveGo, hb, if_true, hf]
        rw [herase, ih kept (credit_score ps e.playerId) _ hk]
        have hf2 : (credit_score ps e.playerId).find? (fun p => p.id == e.playerId) =
            some { sh with score := sh.score + 1 } := by
          rw [find?_credit, hf]
          rfl
        rw [hf2]
        simp [List.countP_cons, hb, List.filter_cons, credit_score_bumped,
          List.replicate_succ]
      | none =>
        simp only [resolveGo, hb, if_true, hf]
        rw [herase, ih kept ps _ hk]
        simp [hf, List.countP_cons, hb, List.filter_cons]
    · have hb' : hitTest e b = false := by simpa using hb
      simp only [resolveGo, hb', if_false, Bool.false_eq_true]
      have happ : kept ++ b :: rest = (kept ++ [b]) ++ rest := by
        rw [List.append_assoc]
        rfl
      rw [happ, ih (kept ++ [b]) ps evs (fun x hx => by
        rcases List.mem_append.mp hx with h1 | h1
        · exact hk x h1
        · rw [List.mem_singleton.mp h1]
          exact hb')]
      simp [List.countP_cons, hb', List.filter_cons, List.append_assoc]

theorem apply_powerup_wall (w1 w2 : ℚ) (t : PowerupType) (p : Player)
    (h : t ≠ PowerupType.banana) : apply_powerup w1 t p = apply_powerup w2 t p := by
  cases t with
  | banana => exact absurd rfl h
  | speed => rfl
  | capacity => rfl
  | strength => rfl

theorem powerupInner_wall (w1 w2 : ℚ) (pu : Powerup) (h : pu.ptype ≠ PowerupType.banana) :
    ∀ ps : List Player, powerupInner w1 pu ps = powerupInner w2 pu ps := by
  intro ps
  induction ps with
  | nil => rfl
  | cons p rest ih =>
    by_cases hp : puOverlap pu p
    · simp [powerupInner, hp, apply_powerup_wall w1 w2 pu.ptype p h]
    · simp [powerupInner, hp, ih]

theorem powerupPhase_wall (w1 w2 : ℚ) (pus : List Powerup)
    (h : ∀ pu ∈ pus, pu.ptype ≠ PowerupType.banana) :
    ∀ (ps : List Player) (evs : List SinkEvent),
      powerupPhase w1 pus ps evs = powerupPhase w2 pus ps evs := by
  induction pus with
  | nil => intro ps evs; rfl
  | cons pu rest ih =>
    intro ps evs
    have hpu : pu.ptype ≠ PowerupType.banana := h pu (by simp)
    have hrest : ∀ q ∈ rest, q.ptype ≠ PowerupType.banana := fun q hq => h q (by simp [hq])
    rw [powerupPhase, powerupPhase, powerupInner_wall w1 w2 pu hpu ps]
    cases hin : powerupInner w2 pu ps with
    | some pr => simp only [ih hrest]
    | none => simp only [ih hrest]

theorem moveBalloons_zero (bs : List FallingBalloon) :
    moveBalloons 0 bs = bs.filter (fun b => !decide (b.y < -BALLOON_RADIUS)) := by
  unfold moveBalloons
  congr 1
  have : ∀ b : FallingBalloon, ({ b with y := b.y - b.vy * 0 } : FallingBalloon) = b := by
    intro b
    simp
  rw [List.map_congr_left (fun b _ => this b)]
  simp

theorem pairIX_movePlayer_zero (now : ℚ) (p : Player)
    (hx : 30 ≤ p.x ∧ p.x ≤ GAME_WIDTH - 30) :
    pairIX (movePlayer now 0 p) = pairIX p := by
  have hid := movePlayer_id now 0 p
  have hxx := movePlayer_x now 0 p
  have hx2 : (movePlayer now 0 p).x = p.x := by
    rw [hxx, mul_zero, add_zero, min_eq_right hx.2, max_eq_right hx.1]
  simp [pairIX, hid, hx2]

/-- Under a zero time delta (and sane accumulator/timers and clamped
player positions), one `advance_room` call moves nothing and spawns
nothing: positions are unchanged and every entity list only shrinks. -/
theorem advance_no_spawn (r : Room) (now : ℚ) (o : Oracle)
    (hdt : dt_clamp r now = 0)
    (hacc : r.spawnAccum < 1)
    (hpu : r.powerupTimer < POWERUP_SPAWN_INTERVAL)
    (hba : r.bananaTimer < BANANA_SPAWN_INTERVAL)
    (hx : ∀ p ∈ r.players, 30 ≤ p.x ∧ p.x ≤ GAME_WIDTH - 30) :
    ((advance_room r now o).1.players).map pairIX = r.players.map pairIX ∧
    List.Sublist (advance_room r now o).1.balloons r.balloons ∧
    List.Sublist (advance_room r now o).1.powerups r.powerups ∧
    List.Sublist (advance_room r now o).1.bananas r.bananas := by
  refine ⟨?_, ?_, ?_, ?_⟩
  · rw [advance_players_pair, hdt]
    exact List.map_congr_left (fun p hp => pairIX_movePlayer_zero now p (hx p hp))
  · show List.Sublist (explosionPhase now _ _ _ _).2.2.1 r.balloons
    refine (explosionPhase_balloons_sublist _ _ _ _ _).trans ?_
    rw [hdt]
    have hacc0 : r.spawnAccum + 0 * (BALLOON_SPAWN_BASE +
        BALLOON_SPAWN_PER_PLAYER * ((r.players.map (movePlayer now 0)).length : ℚ)) < 1 := by
      rw [zero_mul, add_zero]
      exact hacc
    rw [drain_of_lt_one _ _ hacc0]
    simp only [List.range_zero, List.map_nil, List.append_nil]
    rw [moveBalloons_zero]
    exact List.filter_sublist _
  · show List.Sublist (powerupPhase _ _ _ _).1 r.powerups
    refine (powerupPhase_live_sublist _ _ _ _).trans ?_
    rw [hdt]
    simp only [add_zero]
    rw [if_neg (not_le.mpr hba), if_neg (not_le.mpr hpu)]
  · show List.Sublist (bananaPhase now r.bananas _).1 r.bananas
    exact bananaPhase_live_sublist _ _ _


/-! ### Claims -/

/-- C1: for every room state and every time value `now` (including values
producing a negative or huge elapsed delta), after `advance(room, now)`
the `x` coordinate of every player lies in `[30, W - 30]`, `W` the arena
width. -/
theorem C1_player_x_clamped (r : Room) (now : ℚ) (o : Oracle) :
    ∀ p ∈ (advance_room r now o).1.players, 30 ≤ p.x ∧ p.x ≤ GAME_WIDTH - 30 :=
  advance_x_bounds r now o

theorem C1_player_x_clamped_witness :
    basePlayer ∈ (advance_room roomOneP 1 oracleA).1.players ∧
    (30 ≤ basePlayer.x ∧ basePlayer.x ≤ GAME_WIDTH - 30) :=
  ⟨by with_unfolding_all decide,
   C1_player_x_clamped roomOneP 1 oracleA basePlayer (by with_unfolding_all decide)⟩

/-- C2 counterexample: `advance` is not a function of `(room-state, now)`
alone.  With the spawn accumulator at 1, the same room advanced at the same
`now` under two different streams of random draws yields different rooms
(the `x` of the spawned balloon differs), so the claimed determinism fails. -/
theorem C2_advance_deterministic_counterexample :
    advance_room roomSpawny 0 oracleA ≠ advance_room roomSpawny 0 oracleB := by
  with_unfolding_all decide

/-- C2 (amended): `advance(room, now)` is deterministic given
`(room-state, now)` whenever the step consumes no randomness and no wall
clock: the accumulator spawns no balloon, neither spawn timer fires, no
placed balloon fuse expires (explosion ids are random draws), and no
banana-type power-up is present (its activation reads the wall clock).
Under those conditions the resulting room and the emitted statistics-sink
events are independent of the random draws and of the wall clock; in
general, determinism additionally requires equal random draws and an equal
wall-clock reading. -/
theorem C2_advance_deterministic (r : Room) (now : ℚ)
    (h1 : r.spawnAccum + dt_clamp r now *
      (BALLOON_SPAWN_BASE + BALLOON_SPAWN_PER_PLAYER * (r.players.length : ℚ)) < 1)
    (h2 : r.powerupTimer + dt_clamp r now < POWERUP_SPAWN_INTERVAL)
    (h3 : r.bananaTimer + dt_clamp r now < BANANA_SPAWN_INTERVAL)
    (h4 : ∀ pb ∈ r.placedBalloons, now - pb.placedAt < pb.fuse)
    (h5 : ∀ pu ∈ r.powerups, pu.ptype ≠ PowerupType.banana)
    (o1 o2 : Oracle) :
    advance_room r now o1 = advance_room r now o2 := by
  have hexp : r.placedBalloons.filter (fuse_expired now) = [] := by
    rw [List.filter_eq_nil_iff]
    intro pb hpb
    simp [fuse_expired, not_le.mpr (h4 pb hpb)]
  simp only [advance_room, List.length_map]
  rw [drain_of_lt_one _ _ h1]
  simp only [List.range_zero, List.map_nil, List.append_nil,
    if_neg (not_le.mpr h2), if_neg (not_le.mpr h3), hexp, List.enum_nil]
  rw [powerupPhase_wall o1.wallNow o2.wallNow r.powerups h5]

theorem C2_advance_deterministic_witness :
    (emptyRoom.spawnAccum + dt_clamp emptyRoom 1 *
      (BALLOON_SPAWN_BASE + BALLOON_SPAWN_PER_PLAYER * (emptyRoom.players.length : ℚ)) < 1) ∧
    (emptyRoom.powerupTimer + dt_clamp emptyRoom 1 < POWERUP_SPAWN_INTERVAL) ∧
    (emptyRoom.bananaTimer + dt_clamp emptyRoom 1 < BANANA_SPAWN_INTERVAL) ∧
    advance_room emptyRoom 1 oracleA = advance_room emptyRoom 1 oracleB :=
  ⟨by with_unfolding_all decide, by with_unfolding_all decide, by with_unfolding_all decide,
   C2_advance_deterministic emptyRoom 1 (by with_unfolding_all decide)
     (by with_unfolding_all decide) (by with_unfolding_all decide)
     (by simp [emptyRoom]) (by simp [emptyRoom]) oracleA oracleB⟩

/-- C3 counterexample: `lastUpdate` does not only move forward.
`_advance_room` assigns `room["last_update"] = now` unconditionally, so a
`now` earlier than `lastUpdate` pulls the clock backwards. -/
theorem C3_lastUpdate_counterexample :
    (advance_room roomLate 0 oracleA).1.lastUpdate < roomLate.lastUpdate := by
  with_unfolding_all decide

/-- C3 (amended): `advance(room, now)` sets `lastUpdate := now`, so
`lastUpdate` never decreases provided `now ≥ lastUpdate` — which holds for
the monotonic clock feeding it, but not for arbitrary `now`.  The elapsed
delta is unconditionally clamped into `[0, 0.05]`, so for any `now`
(earlier than `lastUpdate` or minutes later) no entity moves backward and
no giant catch-up step occurs. -/
theorem C3_lastUpdate_forward (r : Room) (now : ℚ) (o : Oracle) :
    (advance_room r now o).1.lastUpdate = now ∧
    0 ≤ dt_clamp r now ∧ dt_clamp r now ≤ 1/20 ∧
    (r.lastUpdate ≤ now → r.lastUpdate ≤ (advance_room r now o).1.lastUpdate) := by
  refine ⟨advance_lastUpdate r now o, le_max_left _ _, ?_, ?_⟩
  · exact max_le (by norm_num) (min_le_left _ _)
  · intro h
    rw [advance_lastUpdate]
    exact h

theorem C3_lastUpdate_forward_witness :
    ((advance_room roomLate 0 oracleA).1.lastUpdate = 0 ∧
     0 ≤ dt_clamp roomLate 0 ∧ dt_clamp roomLate 0 ≤ 1/20) ∧
    emptyRoom.lastUpdate ≤ 2 ∧
    emptyRoom.lastUpdate ≤ (advance_room emptyRoom 2 oracleA).1.lastUpdate :=
  ⟨⟨(C3_lastUpdate_forward roomLate 0 oracleA).1,
    (C3_lastUpdate_forward roomLate 0 oracleA).2.1,
    (C3_lastUpdate_forward roomLate 0 oracleA).2.2.1⟩,
   by with_unfolding_all decide,
   (C3_lastUpdate_forward emptyRoom 2 oracleA).2.2.2 (by with_unfolding_all decide)⟩

/-- C4: a second `advance` with the same `now` is a no-op for motion and
spawning: player identities and positions are unchanged, and the
balloon, power-up and banana lists of the second result are sublists of
those of the first result (elements unchanged, nothing new spawned) — the
elapsed delta clamps to 0. -/
theorem C4_same_now_no_motion_no_spawn (r : Room) (now : ℚ) (o o2 : Oracle) :
    ((advance_room (advance_room r now o).1 now o2).1.players).map pairIX =
      ((advance_room r now o).1.players).map pairIX ∧
    List.Sublist (advance_room (advance_room r now o).1 now o2).1.balloons
      (advance_room r now o).1.balloons ∧
    List.Sublist (advance_room (advance_room r now o).1 now o2).1.powerups
      (advance_room r now o).1.powerups ∧
    List.Sublist (advance_room (advance_room r now o).1 now o2).1.bananas
      (advance_room r now o).1.bananas := by
  have h1 : dt_clamp (advance_room r now o).1 now = 0 := by
    unfold dt_clamp
    rw [advance_lastUpdate, sub_self, min_eq_right (by norm_num), max_self]
  exact advance_no_spawn _ now o2 h1 (advance_spawnAccum_lt_one r now o)
    (advance_powerupTimer_lt r now o) (advance_bananaTimer_lt r now o)
    (advance_x_bounds r now o)

/-- C5: with the player present, a balloon placement request succeeds
(appends a `PlacedBalloon` whose `radius` snapshots the current
blast radius of the player and records `lastShot = now`) precisely when
`now - lastShot ≥ cooldown` and the live placed-balloon count of the player is
below `balloonCapacity`; otherwise the room is unchanged except for
`lastSeen`/`vx` — and in both cases the caller receives success, never an
error. -/
theorem C5_balloon_placement_policy (r : Room) (pid : String) (move now : ℚ)
    (bId bnId : String) (p0 : Player)
    (h : r.players.find? (fun p => p.id == pid) = some p0) :
    ∃ r1 evs, api_input r pid move true false now bId bnId = Except.ok (r1, evs) ∧
      (((PLAYER_COOLDOWN ≤ now - p0.lastShot) ∧
        (r.placedBalloons.filter (fun b => b.playerId == pid)).length < p0.balloonCapacity) →
        r1.placedBalloons = r.placedBalloons ++
            [{ id := bId, playerId := pid, x := p0.x, y := GAME_HEIGHT - 45,
               placedAt := now, fuse := BALLOON_FUSE, radius := p0.blastRadius }] ∧
        r1.players = updateFirst (fun p => p.id == pid)
            (fun _ => { p0 with lastSeen := now, vx := clampMove move, lastShot := now }) r.players ∧
        evs = [SinkEvent.balloonPlaced p0.userId]) ∧
      ((¬ ((PLAYER_COOLDOWN ≤ now - p0.lastShot) ∧
        (r.placedBalloons.filter (fun b => b.playerId == pid)).length < p0.balloonCapacity)) →
        r1 = { r with players := (updateFirst (fun p => p.id == pid)
                (fun _ => { p0 with lastSeen := now, vx := clampMove move }) r.players) } ∧
        evs = []) := by
  simp only [api_input, h]
  by_cases hc1 : PLAYER_COOLDOWN ≤ now - p0.lastShot
  · by_cases hc2 : (r.placedBalloons.filter (fun b => b.playerId == pid)).length <
        p0.balloonCapacity
    · refine ⟨_, _, rfl, fun _ => ?_, fun hnc => absurd ⟨hc1, hc2⟩ hnc⟩
      simp [hc1, hc2]
    · refine ⟨_, _, rfl, fun hcond => absurd hcond.2 hc2, fun _ => ?_⟩
      simp [hc2]
  · refine ⟨_, _, rfl, fun hcond => absurd hcond.1 hc1, fun _ => ?_⟩
    simp [hc1]

theorem C5_balloon_placement_policy_witness :
    (roomOneP.players.find? (fun p => p.id == "p1") = some basePlayer) ∧
    (∃ r1 evs, api_input roomOneP ("p1") 0 true false 1 ("pb1") ("bn1") = Except.ok (r1, evs) ∧
      (((PLAYER_COOLDOWN ≤ 1 - basePlayer.lastShot) ∧
        (roomOneP.placedBalloons.filter (fun b => b.playerId == "p1")).length <
          basePlayer.balloonCapacity) →
        r1.placedBalloons = roomOneP.placedBalloons ++
            [{ id := "pb1", playerId := "p1", x := basePlayer.x, y := GAME_HEIGHT - 45,
               placedAt := 1, fuse := BALLOON_FUSE, radius := basePlayer.blastRadius }] ∧
        r1.players = updateFirst (fun p => p.id == "p1")
            (fun _ => { basePlayer with lastSeen := 1, vx := clampMove 0, lastShot := 1 })
            roomOneP.players ∧
        evs = [SinkEvent.balloonPlaced basePlayer.userId]) ∧
      ((¬ ((PLAYER_COOLDOWN ≤ 1 - basePlayer.lastShot) ∧
        (roomOneP.placedBalloons.filter (fun b => b.playerId == "p1")).length <
          basePlayer.balloonCapacity)) →
        r1 = { roomOneP with players := (updateFirst (fun p => p.id == "p1")
                (fun _ => { basePlayer with lastSeen := 1, vx := clampMove 0 })
                roomOneP.players) } ∧
        evs = [])) :=
  ⟨by with_unfolding_all decide,
   C5_balloon_placement_policy roomOneP ("p1") 0 1 ("pb1") ("bn1") basePlayer
     (by with_unfolding_all decide)⟩

/-- C6: during explosion resolution, an explosion with `now > expiresAt`
is removed without destroying any balloon in that step; a live explosion
destroys exactly the falling balloons whose squared center distance is at
most `(explosionRadius + balloonRadius)^2`, and — when the owning player
is still present — bumps the room-local score of that player by exactly 1 per
destroyed balloon (possibly several in one step), emitting one sink event
each. -/
theorem C6_explosion_resolution (now : ℚ) (e : Explosion) (rest : List Explosion)
    (ps : List Player) (bs : List FallingBalloon) (evs : List SinkEvent) :
    (e.expiresAt < now →
      explosionPhase now (e :: rest) ps bs evs = explosionPhase now rest ps bs evs) ∧
    (¬ e.expiresAt < now →
      resolveExplosion e ps bs evs =
        ((match ps.find? (fun p => p.id == e.playerId) with
          | some _ => score_bumped ps e.playerId (bs.countP (hitTest e))
          | none => ps),
         bs.filter (fun b => !hitTest e b),
         evs ++ (match ps.find? (fun p => p.id == e.playerId) with
                 | some sh => List.replicate (bs.countP (hitTest e)) (SinkEvent.score sh.userId)
                 | none => []))) := by
  constructor
  · intro he
    simp [explosionPhase, he]
  · intro _
    have hspec := resolveGo_spec e bs [] ps evs (by simp)
    simpa [resolveExplosion] using hspec

theorem C6_explosion_resolution_witness :
    (exDead.expiresAt < 1 ∧
      explosionPhase 1 (exDead :: []) [basePlayer] [fbHit] [] =
        explosionPhase 1 [] [basePlayer] [fbHit] []) ∧
    ((¬ exLive.expiresAt < 0) ∧
      resolveExplosion exLive [basePlayer] [fbHit, fbMiss] [] =
        ((match ([basePlayer] : List Player).find? (fun p => p.id == exLive.playerId) with
          | some _ => score_bumped [basePlayer] exLive.playerId
              (([fbHit, fbMiss] : List FallingBalloon).countP (hitTest exLive))
          | none => [basePlayer]),
         ([fbHit, fbMiss] : List FallingBalloon).filter (fun b => !hitTest exLive b),
         [] ++ (match ([basePlayer] : List Player).find? (fun p => p.id == exLive.playerId) with
                | some sh => List.replicate
                    (([fbHit, fbMiss] : List FallingBalloon).countP (hitTest exLive))
                    (SinkEvent.score sh.userId)
                | none => []))) :=
  ⟨⟨by with_unfolding_all decide,
    (C6_explosion_resolution 1 exDead [] [basePlayer] [fbHit] []).1
      (by with_unfolding_all decide)⟩,
   ⟨by with_unfolding_all decide,
    (C6_explosion_resolution 0 exLive [] [basePlayer] [fbHit, fbMiss] []).2
      (by with_unfolding_all decide)⟩⟩

/-- C7: in one `advance` step each power-up and each banana is consumed
by at most one player — the winning pickup replaces exactly one entry of
the player list (`List.set` at a single index) — and a consumed item is
dropped from the live list of the room, while an unconsumed item is kept. -/
theorem C7_single_consumer_per_item (w now : ℚ) (pu : Powerup) (bn : Banana)
    (rest : List Powerup) (brest : List Banana) (ps : List Player)
    (evs : List SinkEvent) :
    (∀ ps1 uid, powerupInner w pu ps = some (ps1, uid) →
      (∃ i, ∃ hi : i < ps.length,
        ps1 = ps.set i (apply_powerup w pu.ptype (ps.get ⟨i, hi⟩))) ∧
      (powerupPhase w (pu :: rest) ps evs).1 =
        (powerupPhase w rest ps1 (evs ++ [SinkEvent.powerupCollected uid])).1) ∧
    (powerupInner w pu ps = none →
      (powerupPhase w (pu :: rest) ps evs).1 = pu :: (powerupPhase w rest ps evs).1) ∧
    (∀ ps1, bananaInner now bn ps = some ps1 →
      (∃ i, ∃ hi : i < ps.length,
        ps1 = ps.set i { ps.get ⟨i, hi⟩ with
          slowUntil := max (ps.get ⟨i, hi⟩).slowUntil (now + BANANA_SLOW_DURATION) }) ∧
      (bananaPhase now (bn :: brest) ps).1 = (bananaPhase now brest ps1).1) ∧
    (bananaInner now bn ps = none →
      (bananaPhase now (bn :: brest) ps).1 = bn :: (bananaPhase now brest ps).1) := by
  refine ⟨?_, ?_, ?_, ?_⟩
  · intro ps1 uid hin
    obtain ⟨i, hi, _, _, hset⟩ := powerupInner_some_set w pu ps ps1 uid hin
    exact ⟨⟨i, hi, hset⟩, by simp [powerupPhase, hin]⟩
  · intro hin
    simp [powerupPhase, hin]
  · intro ps1 hin
    obtain ⟨i, hi, _, _, hset⟩ := bananaInner_some_set now bn ps ps1 hin
    exact ⟨⟨i, hi, hset⟩, by simp [bananaPhase, hin]⟩
  · intro hin
    simp [bananaPhase, hin]

theorem C7_single_consumer_per_item_witness :
    (powerupInner 0 puSpeed [basePlayer] = some ([basePlayerSped], 7) ∧
      ((∃ i, ∃ hi : i < ([basePlayer] : List Player).length,
        [basePlayerSped] = ([basePlayer] : List Player).set i
          (apply_powerup 0 puSpeed.ptype (([basePlayer] : List Player).get ⟨i, hi⟩))) ∧
      (powerupPhase 0 (puSpeed :: []) [basePlayer] []).1 =
        (powerupPhase 0 [] [basePlayerSped] ([] ++ [SinkEvent.powerupCollected 7])).1)) ∧
    (powerupInner 0 puFar [basePlayer] = none ∧
      (powerupPhase 0 (puFar :: []) [basePlayer] []).1 =
        puFar :: (powerupPhase 0 [] [basePlayer] []).1) ∧
    (bananaInner 1 bnOther [basePlayer] = some [basePlayerSlowed] ∧
      ((∃ i, ∃ hi : i < ([basePlayer] : List Player).length,
        [basePlayerSlowed] = ([basePlayer] : List Player).set i
          { ([basePlayer] : List Player).get ⟨i, hi⟩ with
            slowUntil := max (([basePlayer] : List Player).get ⟨i, hi⟩).slowUntil
              (1 + BANANA_SLOW_DURATION) }) ∧
      (bananaPhase 1 (bnOther :: []) [basePlayer]).1 =
        (bananaPhase 1 [] [basePlayerSlowed]).1)) ∧
    (bananaInner 1 bnOwn [basePlayer] = none ∧
      (bananaPhase 1 (bnOwn :: []) [basePlayer]).1 =
        bnOwn :: (bananaPhase 1 [] [basePlayer]).1) :=
  ⟨⟨by with_unfolding_all decide,
    (C7_single_consumer_per_item 0 1 puSpeed bnOther [] [] [basePlayer] []).1
      [basePlayerSped] 7 (by with_unfolding_all decide)⟩,
   ⟨by with_unfolding_all decide,
    (C7_single_consumer_per_item 0 1 puFar bnOther [] [] [basePlayer] []).2.1
      (by with_unfolding_all decide)⟩,
   ⟨by with_unfolding_all decide,
    (C7_single_consumer_per_item 0 1 puSpeed bnOther [] [] [basePlayer] []).2.2.1
      [basePlayerSlowed] (by with_unfolding_all decide)⟩,
   ⟨by with_unfolding_all decide,
    (C7_single_consumer_per_item 0 1 puSpeed bnOwn [] [] [basePlayer] []).2.2.2
      (by with_unfolding_all decide)⟩⟩

/-- C8: a banana never affects its own owner under any position overlap —
the victim of a pickup always has an id different from the owner id of the banana,
every player entry carrying the owner id is left untouched — and the
`slowUntil` of the victim becomes `max(slowUntil, now + slowDuration)`, so an
existing longer slow is never shortened. -/
theorem C8_banana_never_slows_owner (now : ℚ) (bn : Banana) (ps ps1 : List Player)
    (h : bananaInner now bn ps = some ps1) :
    ∃ i, ∃ hi : i < ps.length,
      (ps.get ⟨i, hi⟩).id ≠ bn.playerId ∧
      ps1 = ps.set i { ps.get ⟨i, hi⟩ with
        slowUntil := max (ps.get ⟨i, hi⟩).slowUntil (now + BANANA_SLOW_DURATION) } ∧
      (ps.get ⟨i, hi⟩).slowUntil ≤
        max (ps.get ⟨i, hi⟩).slowUntil (now + BANANA_SLOW_DURATION) ∧
      ∀ j, ∀ hj : j < ps.length, (ps.get ⟨j, hj⟩).id = bn.playerId →
        ∀ hj1 : j < ps1.length, ps1.get ⟨j, hj1⟩ = ps.get ⟨j, hj⟩ := by
  obtain ⟨i, hi, hne, _, hset⟩ := bananaInner_some_set now bn ps ps1 h
  refine ⟨i, hi, hne, hset, le_max_left _ _, ?_⟩
  intro j hj hid hj1
  have hji : i ≠ j := by
    intro heq
    subst heq
    exact hne hid
  subst hset
  simp only [List.get_eq_getElem]
  exact List.getElem_set_ne hji _

theorem C8_banana_never_slows_owner_witness :
    (bananaInner 1 bnOwn [basePlayer, victimP] = some [basePlayer, victimSlowed]) ∧
    (∃ i, ∃ hi : i < ([basePlayer, victimP] : List Player).length,
      (([basePlayer, victimP] : List Player).get ⟨i, hi⟩).id ≠ bnOwn.playerId ∧
      [basePlayer, victimSlowed] = ([basePlayer, victimP] : List Player).set i
        { ([basePlayer, victimP] : List Player).get ⟨i, hi⟩ with
          slowUntil := max (([basePlayer, victimP] : List Player).get ⟨i, hi⟩).slowUntil
            (1 + BANANA_SLOW_DURATION) } ∧
      (([basePlayer, victimP] : List Player).get ⟨i, hi⟩).slowUntil ≤
        max (([basePlayer, victimP] : List Player).get ⟨i, hi⟩).slowUntil
          (1 + BANANA_SLOW_DURATION) ∧
      ∀ j, ∀ hj : j < ([basePlayer, victimP] : List Player).length,
        (([basePlayer, victimP] : List Player).get ⟨j, hj⟩).id = bnOwn.playerId →
        ∀ hj1 : j < ([basePlayer, victimSlowed] : List Player).length,
          ([basePlayer, victimSlowed] : List Player).get ⟨j, hj1⟩ =
            ([basePlayer, victimP] : List Player).get ⟨j, hj⟩) :=
  ⟨by with_unfolding_all decide,
   C8_banana_never_slows_owner 1 bnOwn [basePlayer, victimP] [basePlayer, victimSlowed]
     (by with_unfolding_all decide)⟩

/-- C9: a poll request never evicts the player issuing it: `poll`
refreshes the `lastSeen` of the polling player to `now` before stale-player
eviction runs, so the id of the poller is still present afterwards, and any
player of the original room whose id is gone was genuinely stale
(`now - lastSeen > PLAYER_TIMEOUT`). -/
theorem C9_poll_never_evicts_poller (r : Room) (pid : String) (now : ℚ) (o : Oracle)
    (p0 : Player) (h : r.players.find? (fun p => p.id == pid) = some p0) :
    ∃ r1 evs, api_poll r pid now o = Except.ok (r1, evs) ∧
      pid ∈ r1.players.map Player.id ∧
      ∀ q ∈ r.players, q.id ∉ r1.players.map Player.id →
        PLAYER_TIMEOUT < now - q.lastSeen := by
  set ps1 := updateFirst (fun p => p.id == pid)
    (fun p => { p with lastSeen := now }) r.players with hps1
  set R : Room := { r with players := cleanup_players ps1 now } with hR
  refine ⟨(advance_room R now o).1, (advance_room R now o).2, ?_, ?_, ?_⟩
  · show api_poll r pid now o =
      Except.ok ((advance_room R now o).1, (advance_room R now o).2)
    simp only [api_poll, h]
  · rw [advance_players_ids R now o]
    have hmem0 : ({ p0 with lastSeen := now } : Player) ∈ ps1 :=
      mem_updateFirst_of_find? _ _ _ _ h
    have hkeep : ({ p0 with lastSeen := now } : Player) ∈ cleanup_players ps1 now := by
      refine List.mem_filter.mpr ⟨hmem0, ?_⟩
      rw [show ({ p0 with lastSeen := now } : Player).lastSeen = now from rfl, sub_self]
      simp [PLAYER_TIMEOUT]
    have hpid : p0.id = pid := by
      have := List.find?_some h
      simpa using this
    exact List.mem_map.mpr ⟨_, hkeep, hpid⟩
  · intro q hq hnot
    by_contra hle
    push_neg at hle
    rw [advance_players_ids R now o] at hnot
    rcases exists_mem_updateFirst (fun p => p.id == pid)
      (fun p => { p with lastSeen := now }) r.players q hq with hc | hc
    · apply hnot
      refine List.mem_map.mpr ⟨q, List.mem_filter.mpr ⟨hc, ?_⟩, rfl⟩
      simp [not_lt.mpr hle]
    · apply hnot
      refine List.mem_map.mpr ⟨_, List.mem_filter.mpr ⟨hc, ?_⟩, rfl⟩
      rw [show ({ q with lastSeen := now } : Player).lastSeen = now from rfl, sub_self]
      simp [PLAYER_TIMEOUT]

theorem C9_poll_never_evicts_poller_witness :
    (roomOneP.players.find? (fun p => p.id == "p1") = some basePlayer) ∧
    (∃ r1 evs, api_poll roomOneP ("p1") 1 oracleA = Except.ok (r1, evs) ∧
      ("p1" : String) ∈ r1.players.map Player.id ∧
      ∀ q ∈ roomOneP.players, q.id ∉ r1.players.map Player.id →
        PLAYER_TIMEOUT < 1 - q.lastSeen) :=
  ⟨by with_unfolding_all decide,
   C9_poll_never_evicts_poller roomOneP ("p1") 1 oracleA basePlayer
     (by with_unfolding_all decide)⟩

/-- C10: if the `spawnAccumulator` of a room is in `[0, 1)` before a call to
`advance(room, now)`, it is again in `[0, 1)` after the call: the spawn
loop subtracts 1 per spawned balloon until the accumulator drops below 1
and never leaves it negative. -/
theorem C10_spawn_accum_invariant (r : Room) (now : ℚ) (o : Oracle)
    (h : 0 ≤ r.spawnAccum ∧ r.spawnAccum < 1) :
    0 ≤ (advance_room r now o).1.spawnAccum ∧
    (advance_room r now o).1.spawnAccum < 1 := by
  refine ⟨?_, advance_spawnAccum_lt_one r now o⟩
  simp only [advance_room]
  apply drain_fst_nonneg
  have hdt : 0 ≤ dt_clamp r now := le_max_left _ _
  have hlen : (0:ℚ) ≤ (((r.players.map (movePlayer now (dt_clamp r now))).length : ℚ)) :=
    Nat.cast_nonneg _
  have hrate : (0:ℚ) ≤ BALLOON_SPAWN_BASE + BALLOON_SPAWN_PER_PLAYER *
      (((r.players.map (movePlayer now (dt_clamp r now))).length : ℚ)) := by
    have h1 : (0:ℚ) ≤ BALLOON_SPAWN_PER_PLAYER *
        (((r.players.map (movePlayer now (dt_clamp r now))).length : ℚ)) :=
      mul_nonneg (by norm_num [BALLOON_SPAWN_PER_PLAYER]) hlen
    have h2 : (0:ℚ) ≤ BALLOON_SPAWN_BASE := by norm_num [BALLOON_SPAWN_BASE]
    linarith
  exact add_nonneg h.1 (mul_nonneg hdt hrate)

theorem C10_spawn_accum_invariant_witness :
    (0 ≤ roomHalf.spawnAccum ∧ roomHalf.spawnAccum < 1) ∧
    (0 ≤ (advance_room roomHalf 1 oracleA).1.spawnAccum ∧
     (advance_room roomHalf 1 oracleA).1.spawnAccum < 1) :=
  ⟨by with_unfolding_all decide,
   C10_spawn_accum_invariant roomHalf 1 oracleA (by with_unfolding_all decide)⟩
